import Mathlib

/-!
Verification of the cnp-copilot-backend repository: a shallow embedding of
the directory scanner, relevance filter, GitLab connection controller,
gateway error mapping, and AI response parsing, together with theorems
settling the specification claims.

Strings are modelled as Lean String values; the character-level helpers
below mirror the JavaScript string and regex operations the source uses
(String.prototype.trim, split, startsWith, includes, and the specific
regular expressions appearing in the code). All inputs considered are
ASCII, where JavaScript and Lean character semantics agree.
-/

namespace CnpCopilot

/-- Boolean test that the first list is an initial segment of the second. -/
def listLeads : List Char → List Char → Bool
  | [], _ => true
  | _ :: _, [] => false
  | a :: ps, b :: ss => a = b && listLeads ps ss

/-- Split a character list at the first occurrence of a pattern, returning
the part before the pattern and the part after it; none when the pattern
does not occur. Mirrors leftmost regex / indexOf search. -/
def splitFirstL (pat : List Char) : List Char → Option (List Char × List Char)
  | [] => if pat = [] then some ([], []) else none
  | c :: rest =>
    if listLeads pat (c :: rest) then some ([], (c :: rest).drop pat.length)
    else match splitFirstL pat rest with
      | none => none
      | some (b, a) => some (c :: b, a)

/-- The part of a list before the first occurrence of a pattern
(the whole list when the pattern is absent). -/
def beforeFirstL (pat l : List Char) : List Char :=
  match splitFirstL pat l with
  | none => l
  | some (b, _) => b

/-- The part of a list after the first occurrence of a pattern. -/
def afterFirstL (pat l : List Char) : Option (List Char) :=
  (splitFirstL pat l).map Prod.snd

/-- Substring containment on character lists (JavaScript String.includes). -/
def containsL (pat l : List Char) : Bool :=
  (splitFirstL pat l).isSome

/-- Substring containment on strings (JavaScript String.includes). -/
def strContains (s pat : String) : Bool :=
  containsL pat.data s.data

/-- JavaScript String.startsWith. -/
def strStarts (s pat : String) : Bool :=
  listLeads pat.data s.data

/-- Boolean test that the first string is an initial segment of the second. -/
def strLeads (p s : String) : Bool :=
  listLeads p.data s.data

/-- JavaScript String.endsWith. -/
def strEnds (s pat : String) : Bool :=
  listLeads pat.data.reverse s.data.reverse

/-- Whitespace recognized by JavaScript trim and the regex class \s,
restricted to the ASCII range. -/
def isWsChar (c : Char) : Bool :=
  c = ' ' || c = '\t' || c = '\n' || c = '\r' || c = '\x0b' || c = '\x0c'

/-- JavaScript String.prototype.trim on a character list. -/
def jsTrimL (l : List Char) : List Char :=
  ((l.dropWhile isWsChar).reverse.dropWhile isWsChar).reverse

/-- JavaScript String.prototype.trim. -/
def jsTrim (s : String) : String :=
  String.mk (jsTrimL s.data)

/-- ASCII lower-casing of a character list (JavaScript toLowerCase on the
ASCII inputs considered here). -/
def toLowerL (l : List Char) : List Char :=
  l.map Char.toLower

/-- ASCII lower-casing of a string. -/
def strToLower (s : String) : String :=
  String.mk (toLowerL s.data)

/-- JavaScript String.prototype.split at a single character: split "a\nb"
gives ["a", "b"], split "" gives [""]. -/
def splitOnChar (c : Char) : List Char → List (List Char)
  | [] => [[]]
  | x :: rest =>
    if x = c then [] :: splitOnChar c rest
    else match splitOnChar c rest with
      | [] => [[x]]
      | l :: ls => (x :: l) :: ls

/-- Join a list of strings with a newline separator
(JavaScript Array.prototype.join with separator \n). -/
def joinLines : List String → String
  | [] => ""
  | [s] => s
  | s :: rest => s ++ "\n" ++ joinLines rest

/-! ## Data model: scanned file entries (src/controllers/aiController.ts, src/services/aiService.ts) -/

/-- The file/folder discriminator of a CodebaseFile (the string union
kind "file" | "folder" in the source). -/
inductive FileType where
  | file
  | folder
deriving DecidableEq, Repr

/-- CodebaseFile from aiService.ts: a scanned entry with its relative
path, base name, kind, and optional byte size. -/
structure CodebaseFile where
  path : String
  name : String
  type : FileType
  size : Option Nat
deriving DecidableEq, Repr

/-! ## Directory scanner (scanDirectory / shouldIgnoreFile in aiController.ts) -/

/-- Test of the binary-extension regex of shouldIgnoreFile,
case-insensitive match of a final dot-extension. -/
def binaryExtTest (s : String) : Bool :=
  ["exe", "dll", "so", "dylib", "bin", "img", "iso"].any
    (fun e => strEnds (strToLower s) ("." ++ e))

/-- Test of the media-extension regex of shouldIgnoreFile,
case-insensitive match of a final dot-extension. -/
def mediaExtTest (s : String) : Bool :=
  ["jpg", "jpeg", "png", "gif", "bmp", "svg", "ico", "mp4", "mp3", "wav", "avi"].any
    (fun e => strEnds (strToLower s) ("." ++ e))

/-- Application of every ignore pattern of shouldIgnoreFile to one string,
in source order: the unanchored patterns are substring tests, the
end-anchored ones suffix tests, the leading-dot one a start test. -/
def ignoreTest (s : String) : Bool :=
  strStarts s "." ||
  strContains s "node_modules" ||
  strContains s "vendor" ||
  strContains s "venv" ||
  strContains s "__pycache__" ||
  strContains s "dist" ||
  strContains s "build" ||
  strContains s "out" ||
  strContains s "target" ||
  strContains s ".vscode" ||
  strContains s ".idea" ||
  strContains s ".DS_Store" ||
  strContains s "Thumbs.db" ||
  strEnds s ".log" ||
  strEnds s "package-lock.json" ||
  strEnds s "yarn.lock" ||
  strEnds s "composer.lock" ||
  binaryExtTest s ||
  mediaExtTest s

/-- shouldIgnoreFile from aiController.ts: some pattern matches the entry
name or the relative path. -/
def shouldIgnoreFile (fileName relativePath : String) : Bool :=
  ignoreTest fileName || ignoreTest relativePath

/- An in-memory model of the local directory tree scanned by
scanDirectory. A statFail node stands for an entry on which fs.statSync
throws (permissions, race with deletion). -/
mutual
inductive FsNode where
  | file : Nat → FsNode
  | dir : FsListing → FsNode
  | statFail : FsNode
inductive FsListing where
  | nil : FsListing
  | cons : String → FsNode → FsListing → FsListing
end

/-- Build a listing from a plain list of named nodes, in listing order. -/
def FsListing.ofList : List (String × FsNode) → FsListing
  | [] => .nil
  | (n, node) :: rest => .cons n node (FsListing.ofList rest)

/-- The relative path of a child entry: path.relative of the joined path,
which is the bare name at the root and rel/name below it. -/
def joinRel (rel name : String) : String :=
  if rel = "" then name else rel ++ "/" ++ name

/-- scanDirectory from aiController.ts over the in-memory tree, carrying
the relative path of the directory being scanned (the root scan uses "").
Ignored entries are skipped together with their subtree; a directory
entry is emitted before its recursively scanned children; a statFail
entry raises inside the for-loop, so the surrounding catch ends this
directory scan and the entries accumulated so far are returned, dropping
the remaining entries of this directory (each recursive call has its own
catch, so the failure does not propagate to the parent). -/
def scanListing (rel : String) : FsListing → List CodebaseFile
  | .nil => []
  | .cons name node rest =>
    let childRel := joinRel rel name
    if shouldIgnoreFile name childRel then scanListing rel rest
    else match node with
      | .statFail => []
      | .file sz => ⟨childRel, name, .file, some sz⟩ :: scanListing rel rest
      | .dir sub =>
          ⟨childRel, name, .folder, none⟩ ::
            (scanListing childRel sub ++ scanListing rel rest)

/-! ## Relevance filter (fetchCodebaseFiles in aiController.ts) -/

/-- The character list after the last occurrence of a character
(the whole list when the character is absent). -/
def afterLastChar (c : Char) (l : List Char) : List Char :=
  (l.reverse.takeWhile (fun x => x ≠ c)).reverse

/-- Model of Node path.extname on a character list: the final
dot-extension of the base name, empty when the base name has no dot or
its only dot is the leading character. -/
def extnameL (l : List Char) : List Char :=
  let b := afterLastChar '/' l
  let revB := b.reverse
  let afterDot := revB.takeWhile (fun x => x ≠ '.')
  if afterDot.length = revB.length then []
  else if afterDot.length + 1 = revB.length then []
  else '.' :: afterDot.reverse

/-- Model of Node path.extname on strings. -/
def extname (s : String) : String :=
  String.mk (extnameL s.data)

/-- The fixed allow-list of extensions from fetchCodebaseFiles. -/
def relevantExtensions : List String :=
  [".js", ".jsx", ".ts", ".tsx", ".py", ".java", ".cpp", ".c", ".h",
   ".cs", ".php", ".rb", ".go", ".rs", ".swift", ".kt", ".scala",
   ".json", ".yaml", ".yml", ".toml", ".xml", ".md", ".txt",
   ".sql", ".sh", ".bat", ".ps1", ".dockerfile", ".env"]

/-- The per-entry predicate of the filter in fetchCodebaseFiles: the
entry is a file and its lowercased extension is in the allow-list, or
its lowercased name contains one of the four keywords, or it has no
extension at all. -/
def isRelevantFile (f : CodebaseFile) : Bool :=
  let ext := strToLower (extname f.path)
  match f.type with
  | .folder => false
  | .file =>
    relevantExtensions.contains ext ||
    strContains (strToLower f.name) "readme" ||
    strContains (strToLower f.name) "config" ||
    strContains (strToLower f.name) "package" ||
    strContains (strToLower f.name) "makefile" ||
    ext = ""

/-- The relevance filter applied by fetchCodebaseFiles to the scanned
list. -/
def filterRelevant (files : List CodebaseFile) : List CodebaseFile :=
  files.filter isRelevantFile

/-! ## URL parsing (model of the WHATWG URL constructor used by
gitlabController.ts) -/

/-- The components of a parsed URL that the controller reads. -/
structure UrlParts where
  protocol : String
  hostname : String
  pathname : String
deriving DecidableEq, Repr

/-- Characters permitted in a URL scheme. -/
def isSchemeChar (c : Char) : Bool :=
  c.isAlpha || c.isDigit || c = '+' || c = '-' || c = '.'

/-- Model of the WHATWG URL constructor (new URL in the JavaScript
runtime, an external platform API) restricted to
scheme://host[:port][/path] URLs without userinfo: parsing fails (the
constructor throws) when the :// separator, the scheme, or the host is
missing; scheme and host are lowercased; the pathname is the part from
the first slash after the authority (a bare authority yields "/").
Sufficient for the repository URLs this controller handles. -/
def parseUrl (s : String) : Option UrlParts :=
  match splitFirstL "://".data s.data with
  | none => none
  | some (scheme, rest) =>
    if scheme = [] then none
    else if !scheme.all isSchemeChar then none
    else
      let auth := rest.takeWhile (fun c => c ≠ '/' && c ≠ '?' && c ≠ '#')
      let afterAuth := rest.drop auth.length
      let host := auth.takeWhile (fun c => c ≠ ':')
      if host = [] then none
      else
        let pathname :=
          match afterAuth with
          | [] => "/"
          | c :: _ =>
            if c = '/' then String.mk (afterAuth.takeWhile (fun x => x ≠ '?' && x ≠ '#'))
            else "/"
        some ⟨String.mk (toLowerL scheme) ++ ":", String.mk (toLowerL host), pathname⟩

/-! ## GitLab connection controller (gitlabController.ts) -/

/-- isValidGitLabUrl from gitlabController.ts: parse succeeds, the
protocol is https, and the lowercased hostname contains "gitlab" or the
raw URL string contains "gitlab" anywhere. -/
def isValidGitLabUrl (url : String) : Bool :=
  match parseUrl url with
  | none => false
  | some u =>
    u.protocol = "https:" && (strContains u.hostname "gitlab" || strContains url "gitlab")

/-- The in-memory singleton connection record (currentConnection). -/
structure StoredConn where
  repoUrl : String
  accessToken : String
deriving DecidableEq, Repr

/-- The response body variants of the connect handler. -/
inductive ConnBody where
  | missingFields
  | invalidUrl
  | invalidToken
  | success (repoUrl : String)
deriving DecidableEq, Repr

/-- The observable outcome of one connect call: HTTP status, body
variant, the connection record after the call, and the console log
emitted on the probe path. -/
structure ConnOutcome where
  status : Nat
  body : ConnBody
  conn : Option StoredConn
  log : List String
deriving DecidableEq, Repr

/-- connectToGitLab from gitlabController.ts. Empty strings model missing
or empty request fields (the only falsy strings). The probe call to the
upstream API is modelled by the probeOk oracle; its outcome reaches only
the console log. Validation failures return 400 and leave the stored
record unchanged; on success the trimmed fields replace the record before
the probe and the handler returns 200 with the stored URL. -/
def connectToGitLab (repoUrl accessToken : String) (conn0 : Option StoredConn)
    (probeOk : Bool) : ConnOutcome :=
  if repoUrl = "" ∨ accessToken = "" then
    ⟨400, .missingFields, conn0, []⟩
  else if jsTrim repoUrl = "" ∨ isValidGitLabUrl repoUrl = false then
    ⟨400, .invalidUrl, conn0, []⟩
  else if jsTrim accessToken = "" ∨ accessToken.length < 10 then
    ⟨400, .invalidToken, conn0, []⟩
  else
    let c : StoredConn := ⟨jsTrim repoUrl, jsTrim accessToken⟩
    ⟨200, .success c.repoUrl, some c,
     [if probeOk then "GitLab API test successful"
      else "GitLab API test failed, but connection stored"]⟩

/-! ## Source-repo gateway (getRepositoryFiles / getRepositoryFileContent
in gitlabController.ts) -/

/-- extractProjectIdFromUrl: the pathname of the parsed repository URL
with one leading slash and a trailing .git suffix removed; none when
parsing fails or the result is empty. -/
def extractProjectIdFromUrl (repoUrl : String) : Option String :=
  match parseUrl repoUrl with
  | none => none
  | some u =>
    let p1 := if strStarts u.pathname "/" then String.mk (u.pathname.data.drop 1)
              else u.pathname
    let p2 := if strEnds p1 ".git" then String.mk (p1.data.take (p1.data.length - 4))
              else p1
    if p2 = "" then none else some p2

/-- The blob/tree discriminator of an upstream tree entry. -/
inductive GitLabNodeType where
  | blob
  | tree
deriving DecidableEq, Repr

/-- One entry of the upstream tree-listing response. -/
structure GitLabFile where
  id : String
  name : String
  path : String
  type : GitLabNodeType
  size : Option Nat
  mode : String
deriving DecidableEq, Repr

/-- One transformed entry of the handler response, with blob/tree mapped
to file/folder. -/
structure TreeFile where
  id : String
  name : String
  path : String
  type : FileType
  size : Option Nat
  mode : String
deriving DecidableEq, Repr

/-- The transformation applied to each upstream entry by
getRepositoryFiles. -/
def transformFile (f : GitLabFile) : TreeFile :=
  ⟨f.id, f.name, f.path,
   (match f.type with | .blob => .file | .tree => .folder), f.size, f.mode⟩

/-- The outcome of the single upstream HTTP call, as the handler observes
it: a successful payload, an axios error carrying the optional response
status and message (status none models a network failure or timeout with
no response), or a non-axios exception. -/
inductive UpstreamOutcome (α : Type) where
  | ok : α → UpstreamOutcome α
  | httpError : Option Nat → String → UpstreamOutcome α
  | nonAxiosError : UpstreamOutcome α
deriving DecidableEq, Repr

/-- The observable response of one tree-listing handler call: HTTP status,
error label when failing, transformed files when succeeding. -/
structure FilesResp where
  status : Nat
  errorLabel : Option String
  files : Option (List TreeFile)
deriving DecidableEq, Repr

/-- getRepositoryFiles from gitlabController.ts: requires a stored
connection and an extractable project id, forwards the upstream result on
success, and maps an upstream error status 401 to the authentication
label, 404 to the repository-not-found label, 403 to the access-denied
label, and anything else (a different status, or no status at all) to the
generic GitLab API error label with the upstream status when present and
500 otherwise; non-axios exceptions map to the internal error label. -/
def getRepositoryFiles (conn : Option StoredConn)
    (outcome : UpstreamOutcome (List GitLabFile)) : FilesResp :=
  match conn with
  | none => ⟨400, some "Not connected", none⟩
  | some c =>
    match extractProjectIdFromUrl c.repoUrl with
    | none => ⟨400, some "Invalid repository URL", none⟩
    | some _ =>
      match outcome with
      | .ok gl => ⟨200, none, some (gl.map transformFile)⟩
      | .httpError st _ =>
        if st = some 401 then ⟨401, some "Authentication failed", none⟩
        else if st = some 404 then ⟨404, some "Repository not found", none⟩
        else if st = some 403 then ⟨403, some "Access denied", none⟩
        else ⟨st.getD 500, some "GitLab API error", none⟩
      | .nonAxiosError => ⟨500, some "Internal server error", none⟩

/-- The observable response of one raw-file handler call. -/
structure FileContentResp where
  status : Nat
  errorLabel : Option String
  content : Option String
  size : Option Nat
deriving DecidableEq, Repr

/-- getRepositoryFileContent from gitlabController.ts: requires a stored
connection, a non-empty file path, and an extractable project id; returns
the raw body and its length on success; maps an upstream error status 401
to the authentication label and 404 to the file-not-found label, and any
other axios error (403 included) to the generic GitLab API error label
with the upstream status when present and 500 otherwise; non-axios
exceptions map to the internal error label. -/
def getRepositoryFileContent (conn : Option StoredConn) (filePath : String)
    (outcome : UpstreamOutcome String) : FileContentResp :=
  match conn with
  | none => ⟨400, some "Not connected", none, none⟩
  | some c =>
    if filePath = "" then ⟨400, some "Missing file path", none, none⟩
    else
      match extractProjectIdFromUrl c.repoUrl with
      | none => ⟨400, some "Invalid repository URL", none, none⟩
      | some _ =>
        match outcome with
        | .ok body => ⟨200, none, some body, some body.length⟩
        | .httpError st _ =>
          if st = some 401 then ⟨401, some "Authentication failed", none, none⟩
          else if st = some 404 then ⟨404, some "File not found", none, none⟩
          else ⟨st.getD 500, some "GitLab API error", none, none⟩
        | .nonAxiosError => ⟨500, some "Internal server error", none, none⟩

/-! ## Response parsing (parseFileAnalysis / parseAIResponse in
aiService.ts) -/

/-- The confidence union of FileAnalysis. -/
inductive Confidence where
  | high
  | medium
  | low
deriving DecidableEq, Repr

/-- FileAnalysis from aiService.ts. -/
structure FileAnalysis where
  relevantFiles : List String
  reasoning : String
  confidence : Confidence
deriving DecidableEq, Repr

/-- Check for one of the alternatives high, medium, low right after the
whitespace run following a CONFIDENCE: marker, over lowercased text. -/
def confAfterWs (l : List Char) : Option Confidence :=
  let r := l.dropWhile isWsChar
  if listLeads "high".data r then some .high
  else if listLeads "medium".data r then some .medium
  else if listLeads "low".data r then some .low
  else none

/-- The case-insensitive regex search for CONFIDENCE: followed by
whitespace and one of high, medium, low, over the lowercased text: the
engine tries each occurrence of the marker from the left and accepts the
first one followed by a recognized value. -/
def findConfidenceL : List Char → Option Confidence
  | [] => none
  | c :: rest =>
    if listLeads "confidence:".data (c :: rest) then
      match confAfterWs ((c :: rest).drop "confidence:".data.length) with
      | some v => some v
      | none => findConfidenceL rest
    else findConfidenceL rest

/-- parseFileAnalysis from aiService.ts. The lazy-capture regexes with an
end-of-section lookahead amount to: the text after the first REASONING:
marker up to the first following RELEVANT_FILES: marker (or the end),
trimmed, with the default when the marker is absent; likewise for the
files section up to CONFIDENCE:. The files section is split into lines,
each trimmed, blank lines and lines starting with a bracket or a double
slash dropped, and the first 15 kept in order. The confidence is the
case-insensitive match with default medium. -/
def parseFileAnalysis (response : String) : FileAnalysis :=
  let cs := response.data
  let reasoning :=
    match afterFirstL "REASONING:".data cs with
    | none => "Analysis completed"
    | some rest => String.mk (jsTrimL (beforeFirstL "RELEVANT_FILES:".data rest))
  let filesText : List Char :=
    match afterFirstL "RELEVANT_FILES:".data cs with
    | none => []
    | some rest => jsTrimL (beforeFirstL "CONFIDENCE:".data rest)
  let confidence := (findConfidenceL (toLowerL cs)).getD .medium
  let relevantFiles :=
    (((splitOnChar '\n' filesText).map jsTrimL).filter
      (fun l => l ≠ [] && !listLeads "[".data l && !listLeads "//".data l)).take 15
  ⟨relevantFiles.map String.mk, reasoning, confidence⟩

/-- The parsed two-field reply of parseAIResponse. -/
structure ParsedResponse where
  explanation : String
  content : Option String
deriving DecidableEq, Repr

/-- The regex search for CONTENT: followed by whitespace, a markdown
fence opener, a lazily captured body, whitespace, and a closing fence:
the engine tries each occurrence of CONTENT: from the left and accepts
the first one where the fence opener follows the whitespace run and a
closing fence occurs later; the captured body trimmed is the section up
to the first closing fence, trimmed. -/
def findContentL : List Char → Option (List Char)
  | [] => none
  | c :: rest =>
    if listLeads "CONTENT:".data (c :: rest) then
      let afterMark := ((c :: rest).drop "CONTENT:".data.length).dropWhile isWsChar
      if listLeads "```markdown".data afterMark then
        let body := afterMark.drop "```markdown".data.length
        if containsL "```".data body then some (jsTrimL (beforeFirstL "```".data body))
        else findContentL rest
      else findContentL rest
    else findContentL rest

/-- parseAIResponse from aiService.ts: for the chat action the whole text
is the explanation; otherwise the explanation is the trimmed text between
the first EXPLANATION: marker and the first following CONTENT: marker (or
the end), with the whole text as fallback when the marker is absent, and
the content is the trimmed body of the markdown fence after CONTENT:,
absent when no fenced block is found. -/
def parseAIResponse (text : String) (action : String) : ParsedResponse :=
  if action = "chat" then ⟨text, none⟩
  else
    let cs := text.data
    let explanation :=
      match afterFirstL "EXPLANATION:".data cs with
      | none => text
      | some rest => String.mk (jsTrimL (beforeFirstL "CONTENT:".data rest))
    let content := (findContentL cs).map String.mk
    ⟨explanation, content⟩

/-! ## AI orchestrator (aiService.ts) and chat handler (aiController.ts) -/

/-- The action union of ChatRequest. -/
inductive Action where
  | edit
  | generate
  | chat
  | analyze_codebase
  | process_with_files
deriving DecidableEq, Repr

/-- The string form of an action, as it appears in request bodies and in
the echoed action field of responses. -/
def actionStr : Action → String
  | .edit => "edit"
  | .generate => "generate"
  | .chat => "chat"
  | .analyze_codebase => "analyze_codebase"
  | .process_with_files => "process_with_files"

/-- The action strings accepted by the controller, mapped to the action;
none models failing the includes check of chatWithAI. -/
def strToAction (s : String) : Option Action :=
  if s = "edit" then some .edit
  else if s = "generate" then some .generate
  else if s = "chat" then some .chat
  else if s = "analyze_codebase" then some .analyze_codebase
  else if s = "process_with_files" then some .process_with_files
  else none

/-- ChatRequest from aiService.ts as the service receives it. -/
structure ChatRequest where
  message : String
  currentContent : Option String
  filePath : Option String
  action : Action
  selectedFiles : Option (List String)
  codebaseFiles : Option (List CodebaseFile)
deriving DecidableEq, Repr

/-- ChatResponse from aiService.ts. -/
structure ChatResponse where
  response : String
  suggestedContent : Option String
  action : String
  fileAnalysis : Option FileAnalysis
  needsUserConfirmation : Option Bool
deriving DecidableEq, Repr

/-- The externally observable side effects of one request: a scan of the
local codebase root, a per-path file-system access in the batch fetch, or
one call to the external model service. -/
inductive Effect where
  | scanCodebase
  | fsRead (path : String)
  | modelCall
deriving DecidableEq, Repr

/-- What the local file system holds at one selected path, as observed by
fetchFileContents: no entry, a directory, a readable file with its
content (whose length is its byte size on the ASCII inputs considered),
or an entry whose stat or read throws. -/
inductive FsObject where
  | missing
  | directory
  | file (content : String)
  | unreadable
deriving DecidableEq, Repr

/-- getLanguageFromExtension from aiService.ts. -/
def getLanguageFromExtension (ext : String) : String :=
  if ext = ".js" then "javascript"
  else if ext = ".jsx" then "jsx"
  else if ext = ".ts" then "typescript"
  else if ext = ".tsx" then "tsx"
  else if ext = ".py" then "python"
  else if ext = ".java" then "java"
  else if ext = ".cpp" then "cpp"
  else if ext = ".c" then "c"
  else if ext = ".h" then "c"
  else if ext = ".cs" then "csharp"
  else if ext = ".php" then "php"
  else if ext = ".rb" then "ruby"
  else if ext = ".go" then "go"
  else if ext = ".rs" then "rust"
  else if ext = ".swift" then "swift"
  else if ext = ".kt" then "kotlin"
  else if ext = ".scala" then "scala"
  else if ext = ".json" then "json"
  else if ext = ".yaml" then "yaml"
  else if ext = ".yml" then "yaml"
  else if ext = ".toml" then "toml"
  else if ext = ".xml" then "xml"
  else if ext = ".md" then "markdown"
  else if ext = ".sql" then "sql"
  else if ext = ".sh" then "bash"
  else if ext = ".bat" then "batch"
  else if ext = ".ps1" then "powershell"
  else if ext = ".dockerfile" then "dockerfile"
  else if ext = ".env" then "bash"
  else "text"

/-- The labeled block fetchFileContents pushes for one selected path:
a placeholder for a missing entry, a directory, an oversized file
(over 1 MiB, with the size rounded to KB), or an unreadable entry, and
otherwise the content inside a fence tagged with the language derived
from the lowercased extension. -/
def fileBlock (filePath : String) (obj : FsObject) : String :=
  match obj with
  | .missing => "\nFILE: " ++ filePath ++ "\n[Error: File not found]\n"
  | .directory => "\nFILE: " ++ filePath ++ "\n[Directory - skipped]\n"
  | .unreadable => "\nFILE: " ++ filePath ++ "\n[Error: Could not read file content]\n"
  | .file content =>
    if content.length > 1024 * 1024 then
      "\nFILE: " ++ filePath ++ "\n[File too large (" ++
        toString ((content.length + 512) / 1024) ++ "KB) - skipped]\n"
    else
      "\nFILE: " ++ filePath ++ "\n```" ++
        getLanguageFromExtension (strToLower (extname filePath)) ++ "\n" ++
        content ++ "\n```\n"

/-- fetchFileContents from aiService.ts: one file-system access per
selected path in order, each producing its labeled block, joined with
newlines; individual failures degrade to placeholder blocks and never
abort the batch. -/
def fetchFileContents (fsys : String → FsObject) (paths : List String) :
    String × List Effect :=
  (joinLines (paths.map (fun p => fileBlock p (fsys p))), paths.map Effect.fsRead)

/-- The fixed response message of analyzeCodebaseForTask, parameterized
by the number of relevant files found. -/
def analyzeMsg (n : Nat) : String :=
  "I\x27ve analyzed your codebase and identified " ++ toString n ++
    " files that would be most helpful for creating comprehensive technical documentation. Please review my suggestions below."

/-- analyzeCodebaseForTask from aiService.ts: builds the analysis prompt
from the request and its codebaseFiles listing, issues one model call
(whose text reply the oracle supplies), parses it with parseFileAnalysis,
and wraps the result with needsUserConfirmation set. -/
def analyzeCodebaseForTask (_req : ChatRequest) (oracle : String) :
    Except String ChatResponse × List Effect :=
  let fa := parseFileAnalysis oracle
  (.ok ⟨analyzeMsg fa.relevantFiles.length, none, "analyze_codebase", some fa, some true⟩,
   [.modelCall])

/-- processWithSelectedFiles from aiService.ts: throws before any file
access or model call when selectedFiles is missing or empty (the local
catch rewraps the error); otherwise fetches every selected file, issues
one model call, and parses the reply with the edit-style parser. -/
def processWithSelectedFiles (fsys : String → FsObject) (req : ChatRequest)
    (oracle : String) : Except String ChatResponse × List Effect :=
  match req.selectedFiles with
  | none => (.error "Failed to process selected files", [])
  | some [] => (.error "Failed to process selected files", [])
  | some (p :: ps) =>
    let fetched := fetchFileContents fsys (p :: ps)
    let parsed := parseAIResponse oracle "edit"
    (.ok ⟨parsed.explanation, parsed.content, "process_with_files", none, none⟩,
     fetched.2 ++ [.modelCall])

/-- processDocumentRequest from aiService.ts: dispatches on the action;
the simple actions build their prompt, issue one model call, and parse
the reply; any error escaping the dispatch is rewrapped by the
surrounding catch into the generic failure. -/
def processDocumentRequest (fsys : String → FsObject) (req : ChatRequest)
    (oracle : String) : Except String ChatResponse × List Effect :=
  let r :=
    match req.action with
    | .analyze_codebase => analyzeCodebaseForTask req oracle
    | .process_with_files => processWithSelectedFiles fsys req oracle
    | a =>
      let parsed := parseAIResponse oracle (actionStr a)
      (.ok ⟨parsed.explanation, parsed.content, actionStr a, none, none⟩, [.modelCall])
  (match r.1 with
   | .ok v => .ok v
   | .error _ => .error "Failed to process AI request", r.2)

/-- The observable outcome of one chat handler call: HTTP status, the
success flag and error field of the JSON body, the returned task result,
the side effects performed, and the (untouched) connection record. -/
structure AiHandlerResult where
  status : Nat
  success : Option Bool
  errorField : Option String
  data : Option ChatResponse
  effects : List Effect
  conn : Option StoredConn
deriving DecidableEq, Repr

/-- Shape the handler response from the service result, prepending the
effects already performed by the handler itself. -/
def aiRespond (conn : Option StoredConn) (pre : List Effect)
    (pr : Except String ChatResponse × List Effect) : AiHandlerResult :=
  match pr.1 with
  | .ok v => ⟨200, some true, none, some v, pre ++ pr.2, conn⟩
  | .error _ => ⟨500, some false, some "Failed to process AI request", none, pre ++ pr.2, conn⟩

/-- chatWithAI from aiController.ts. The tree argument models the local
codebase root (none when the folder does not exist); empty strings model
missing request fields (the only falsy strings); the oracle supplies the
external model reply. Field validation and the action-enum check return
400 before anything runs; the analyze action scans and filters the
codebase first (failing with its dedicated 500 when the root is
missing); everything else goes to the service, whose failure surfaces as
the generic 500. The handler never touches the stored GitLab connection
or writes any file. -/
def chatWithAI (fsys : String → FsObject) (tree : Option FsListing)
    (conn : Option StoredConn) (message action : String)
    (currentContent filePath : Option String)
    (selectedFiles : Option (List String)) (oracle : String) : AiHandlerResult :=
  if message = "" ∨ action = "" then
    ⟨400, none, some "Missing required fields: message and action are required",
     none, [], conn⟩
  else
    match strToAction action with
    | none =>
      ⟨400, none,
       some "Invalid action. Must be one of: edit, generate, chat, analyze_codebase, process_with_files",
       none, [], conn⟩
    | some .analyze_codebase =>
      match tree with
      | none =>
        ⟨500, some false, some "Failed to fetch codebase files", none,
         [.scanCodebase], conn⟩
      | some t =>
        let req : ChatRequest :=
          ⟨message, currentContent, filePath, .analyze_codebase, selectedFiles,
           some (filterRelevant (scanListing "" t))⟩
        aiRespond conn [.scanCodebase] (processDocumentRequest fsys req oracle)
    | some act =>
      let req : ChatRequest :=
        ⟨message, currentContent, filePath, act, selectedFiles, none⟩
      aiRespond conn [] (processDocumentRequest fsys req oracle)

/-! ## Claims about the connection controller (C3, C5, C6) -/

/-- C3 counterexample: the URL https://example.com/gitlab has a host with
no gitlab marker, yet connect accepts it (the marker sits in the path and
the raw-string containment check passes), storing the connection — the
claim that such a connect call fails with a validation error is false. -/
theorem connect_marker_in_path_accepted :
    parseUrl "https://example.com/gitlab" = some ⟨"https:", "example.com", "/gitlab"⟩ ∧
    strContains "example.com" "gitlab" = false ∧
    (connectToGitLab "https://example.com/gitlab" "abcdefghij12" none true).status = 200 ∧
    (connectToGitLab "https://example.com/gitlab" "abcdefghij12" none true).conn =
      some ⟨"https://example.com/gitlab", "abcdefghij12"⟩ := by
  decide

/-- C3 amended: connect URL validation requires the https scheme and the
gitlab marker in the lowercased host or anywhere in the raw URL string,
so a marker only in the path also passes; every successful connect call
went through this validation. -/
theorem connect_url_validation_requires_marker :
    (∀ url : String, isValidGitLabUrl url = true ↔
       ∃ u, parseUrl url = some u ∧ u.protocol = "https:" ∧
         (strContains u.hostname "gitlab" = true ∨ strContains url "gitlab" = true)) ∧
    (∀ (url token : String) (c : Option StoredConn) (p : Bool),
       (connectToGitLab url token c p).status = 200 → isValidGitLabUrl url = true) := by
  constructor
  · intro url
    unfold isValidGitLabUrl
    cases h : parseUrl url with
    | none => simp
    | some u => simp [Bool.and_eq_true, Bool.or_eq_true, decide_eq_true_eq]
  · intro url token c p h
    unfold connectToGitLab at h
    split_ifs at h with h1 h2 h3 h4
    · simp at h
    · simp at h
    · simp at h
    all_goals
      rcases not_or.mp h2 with ⟨_, hv⟩
      cases hvv : isValidGitLabUrl url
      · exact absurd hvv hv
      · rfl

/-- Witness for the amended C3 theorem at a concrete successful call. -/
theorem connect_url_validation_requires_marker_witness :
    (connectToGitLab "https://gitlab.com/user/repo" "glpat1234567890" none true).status = 200 ∧
    isValidGitLabUrl "https://gitlab.com/user/repo" = true :=
  ⟨by decide,
   connect_url_validation_requires_marker.2 "https://gitlab.com/user/repo"
     "glpat1234567890" none true (by decide)⟩

/-- C5: every connect call whose access token is shorter than 10
characters fails with a 400 validation error and leaves the stored
connection record exactly as it was. -/
theorem connect_short_token_rejected :
    ∀ (url token : String) (c : Option StoredConn) (p : Bool),
      token.length < 10 →
      (connectToGitLab url token c p).status = 400 ∧
      (connectToGitLab url token c p).conn = c := by
  intro url token c p h
  unfold connectToGitLab
  split_ifs with h1 h2 h3 h4
  · exact ⟨rfl, rfl⟩
  · exact ⟨rfl, rfl⟩
  · exact ⟨rfl, rfl⟩
  all_goals exact absurd (Or.inr h) h3

/-- Witness for C5 at a length-5 token. -/
theorem connect_short_token_rejected_witness :
    ("abcde" : String).length < 10 ∧
    (connectToGitLab "https://gitlab.com/a/b" "abcde" none true).status = 400 ∧
    (connectToGitLab "https://gitlab.com/a/b" "abcde" none true).conn = none :=
  ⟨by decide, connect_short_token_rejected "https://gitlab.com/a/b" "abcde" none true (by decide)⟩

/-- C6: for a connect call that passes validation (reaches the 200 path),
the probe outcome cannot be observed in the status, the body, or the
stored record — two runs differing only in the probe outcome agree on all
three (only the console log differs). -/
theorem connect_probe_outcome_invisible :
    ∀ (url token : String) (c : Option StoredConn) (p1 p2 : Bool),
      (connectToGitLab url token c p1).status = 200 →
      (connectToGitLab url token c p1).status = (connectToGitLab url token c p2).status ∧
      (connectToGitLab url token c p1).body = (connectToGitLab url token c p2).body ∧
      (connectToGitLab url token c p1).conn = (connectToGitLab url token c p2).conn := by
  intro url token c p1 p2 _h
  unfold connectToGitLab
  split_ifs <;> exact ⟨rfl, rfl, rfl⟩

/-- Witness for C6 at a concrete validated call with the two probe
outcomes. -/
theorem connect_probe_outcome_invisible_witness :
    (connectToGitLab "https://gitlab.com/user/repo" "glpat1234567890" none true).status = 200 ∧
    ((connectToGitLab "https://gitlab.com/user/repo" "glpat1234567890" none true).status =
       (connectToGitLab "https://gitlab.com/user/repo" "glpat1234567890" none false).status ∧
     (connectToGitLab "https://gitlab.com/user/repo" "glpat1234567890" none true).body =
       (connectToGitLab "https://gitlab.com/user/repo" "glpat1234567890" none false).body ∧
     (connectToGitLab "https://gitlab.com/user/repo" "glpat1234567890" none true).conn =
       (connectToGitLab "https://gitlab.com/user/repo" "glpat1234567890" none false).conn) :=
  ⟨by decide,
   connect_probe_outcome_invisible "https://gitlab.com/user/repo" "glpat1234567890"
     none true false (by decide)⟩

/-! ## Claims about the gateway error mapping (C2) -/

/-- C2 counterexample: an upstream 403 on the raw-file fetch is answered
with the generic GitLab API error label (the fetch handler has no 403
branch), not the access-denied category the claim requires of both
gateway operations. -/
theorem file_content_403_is_generic :
    getRepositoryFileContent (some ⟨"https://gitlab.com/group/proj", "tok1234567890"⟩)
      "src/a.ts" (.httpError (some 403) "Forbidden") =
      ⟨403, some "GitLab API error", none, none⟩ ∧
    (getRepositoryFileContent (some ⟨"https://gitlab.com/group/proj", "tok1234567890"⟩)
      "src/a.ts" (.httpError (some 403) "Forbidden")).errorLabel ≠ some "Access denied" := by
  decide

/-- C2 amended: with a stored connection whose URL yields a project id
and a non-empty file path, the tree listing maps upstream 401 to the
authentication label, 403 to the access-denied label, 404 to the
repository-not-found label (status 404, never 500), and every other
status to the generic upstream-error label carrying that status (500
when no status is present); the raw-file fetch maps only 401 and 404
specially, so every other status — 403 included — falls to the generic
upstream-error label carrying the upstream status. -/
theorem gateway_error_status_mapping :
    ∀ (c : StoredConn) (fp m : String) (s : Nat),
      (extractProjectIdFromUrl c.repoUrl).isSome = true → fp ≠ "" →
      (getRepositoryFiles (some c) (.httpError (some 401) m) =
        ⟨401, some "Authentication failed", none⟩) ∧
      (getRepositoryFiles (some c) (.httpError (some 403) m) =
        ⟨403, some "Access denied", none⟩) ∧
      (getRepositoryFiles (some c) (.httpError (some 404) m) =
        ⟨404, some "Repository not found", none⟩) ∧
      (s ≠ 401 → s ≠ 403 → s ≠ 404 →
        getRepositoryFiles (some c) (.httpError (some s) m) =
          ⟨s, some "GitLab API error", none⟩) ∧
      (getRepositoryFiles (some c) (.httpError none m) =
        ⟨500, some "GitLab API error", none⟩) ∧
      (getRepositoryFileContent (some c) fp (.httpError (some 401) m) =
        ⟨401, some "Authentication failed", none, none⟩) ∧
      (getRepositoryFileContent (some c) fp (.httpError (some 404) m) =
        ⟨404, some "File not found", none, none⟩) ∧
      (s ≠ 401 → s ≠ 404 →
        getRepositoryFileContent (some c) fp (.httpError (some s) m) =
          ⟨s, some "GitLab API error", none, none⟩) ∧
      (getRepositoryFileContent (some c) fp (.httpError none m) =
        ⟨500, some "GitLab API error", none, none⟩) := by
  intro c fp m s hpid hfp
  obtain ⟨pid, hp⟩ := Option.isSome_iff_exists.mp hpid
  refine ⟨?_, ?_, ?_, ?_, ?_, ?_, ?_, ?_, ?_⟩ <;>
    simp [getRepositoryFiles, getRepositoryFileContent, hp, hfp, Option.getD]
  · intro h1 h2 h3
    simp [h1, h2, h3]
  · intro h1 h2
    simp [h1, h2]

/-- Witness for the amended C2 theorem at status 418 on both operations. -/
theorem gateway_error_status_mapping_witness :
    getRepositoryFiles (some ⟨"https://gitlab.com/g/p", "tok1234567890"⟩)
      (.httpError (some 418) "teapot") = ⟨418, some "GitLab API error", none⟩ ∧
    getRepositoryFileContent (some ⟨"https://gitlab.com/g/p", "tok1234567890"⟩)
      "a.ts" (.httpError (some 418) "teapot") = ⟨418, some "GitLab API error", none, none⟩ :=
  ⟨(gateway_error_status_mapping ⟨"https://gitlab.com/g/p", "tok1234567890"⟩ "a.ts"
      "teapot" 418 (by decide) (by decide)).2.2.2.1 (by decide) (by decide) (by decide),
   (gateway_error_status_mapping ⟨"https://gitlab.com/g/p", "tok1234567890"⟩ "a.ts"
      "teapot" 418 (by decide) (by decide)).2.2.2.2.2.2.2.1 (by decide) (by decide)⟩

/-! ## Claims about the AI chat pipeline (C1) -/

/-- C1 counterexample: a process_with_files request with an empty
selectedFiles list is answered with status 500 (the thrown
no-files-selected error is rewrapped by the generic catch chain), not
with the 400 the claim requires. -/
theorem process_with_files_empty_gives_500_not_400 :
    (chatWithAI (fun _ => .missing) none none "write docs" "process_with_files"
      none none (some []) "reply").status = 500 ∧
    (chatWithAI (fun _ => .missing) none none "write docs" "process_with_files"
      none none (some []) "reply").status ≠ 400 := by
  decide

/-- C1 amended: a process_with_files request whose selectedFiles is
missing or empty fails with a 500 error before any file-system access or
external model call — the effect trace is empty — and the stored
connection is unchanged. -/
theorem process_with_files_empty_fails_before_effects :
    ∀ (fsys : String → FsObject) (tree : Option FsListing) (conn : Option StoredConn)
      (msg : String) (cc fp : Option String) (sel : Option (List String)) (oracle : String),
      msg ≠ "" → (sel = none ∨ sel = some []) →
      chatWithAI fsys tree conn msg "process_with_files" cc fp sel oracle =
        ⟨500, some false, some "Failed to process AI request", none, [], conn⟩ := by
  intro fsys tree conn msg cc fp sel oracle hmsg hsel
  rcases hsel with rfl | rfl <;>
    simp [chatWithAI, strToAction, processDocumentRequest, processWithSelectedFiles,
      aiRespond, hmsg]

/-- Witness for the amended C1 theorem at a concrete empty-selection
request. -/
theorem process_with_files_empty_fails_before_effects_witness :
    chatWithAI (fun _ => FsObject.missing) none
      (some ⟨"https://gitlab.com/a/b", "tok1234567890"⟩) "document the api"
      "process_with_files" none none (some []) "reply" =
      ⟨500, some false, some "Failed to process AI request", none, [],
       some ⟨"https://gitlab.com/a/b", "tok1234567890"⟩⟩ :=
  process_with_files_empty_fails_before_effects (fun _ => FsObject.missing) none
    (some ⟨"https://gitlab.com/a/b", "tok1234567890"⟩) "document the api" none none
    (some []) "reply" (by decide) (Or.inr rfl)

/-! ## Helper lemmas about string initial segments -/

theorem strData_append (a b : String) : (a ++ b).data = a.data ++ b.data := by
  cases a
  cases b
  rfl

theorem listLeads_self_append : ∀ (a b : List Char), listLeads a (a ++ b) = true
  | [], _ => rfl
  | c :: cs, b => by simp [listLeads, listLeads_self_append cs b]

theorem listLeads_trans : ∀ (a b c : List Char),
    listLeads a b = true → listLeads b c = true → listLeads a c = true
  | [], _, _, _, _ => rfl
  | _ :: _, [], _, h1, _ => by simp [listLeads] at h1
  | _ :: _, _ :: _, [], _, h2 => by simp [listLeads] at h2
  | x :: xs, y :: ys, z :: zs, h1, h2 => by
    simp only [listLeads, Bool.and_eq_true, decide_eq_true_eq] at h1 h2 ⊢
    exact ⟨h1.1.trans h2.1, listLeads_trans xs ys zs h1.2 h2.2⟩

theorem strLeads_self_append (a b : String) : strLeads a (a ++ b) = true := by
  unfold strLeads
  rw [strData_append]
  exact listLeads_self_append a.data b.data

theorem strLeads_trans {a b c : String} (h1 : strLeads a b = true)
    (h2 : strLeads b c = true) : strLeads a c = true :=
  listLeads_trans a.data b.data c.data h1 h2

theorem strLeads_join (rel name : String) (h : rel ≠ "") :
    strLeads (rel ++ "/") (joinRel rel name) = true := by
  unfold joinRel
  rw [if_neg h]
  unfold strLeads
  have := listLeads_self_append (rel.data ++ "/".data) name.data
  simpa [strData_append, List.append_assoc] using this

theorem joinRel_ne_empty (rel name : String) (h : name ≠ "") : joinRel rel name ≠ "" := by
  unfold joinRel
  by_cases hrel : rel = ""
  · rw [if_pos hrel]
    exact h
  · rw [if_neg hrel]
    intro hc
    have hd : (rel ++ "/" ++ name).data = ("" : String).data := congrArg String.data hc
    simp [strData_append] at hd

/-- Every entry emitted by scanning a listing at a non-root relative path
has that path plus a slash as an initial segment of its own path: the
scan emits only entries lying inside the directory being scanned. -/
theorem scan_path_leads : ∀ (rel : String) (l : FsListing), rel ≠ "" →
    ∀ e ∈ scanListing rel l, strLeads (rel ++ "/") e.path = true
  | _, .nil, _, _, he => by simp [scanListing] at he
  | rel, .cons name .statFail rest, h, e, he => by
    simp only [scanListing] at he
    split at he
    · exact scan_path_leads rel rest h e he
    · simp at he
  | rel, .cons name (.file sz) rest, h, e, he => by
    simp only [scanListing] at he
    split at he
    · exact scan_path_leads rel rest h e he
    · rcases List.mem_cons.mp he with rfl | hmem
      · exact strLeads_join rel name h
      · exact scan_path_leads rel rest h e hmem
  | rel, .cons name (.dir sub) rest, h, e, he => by
    simp only [scanListing] at he
    split at he
    · exact scan_path_leads rel rest h e he
    · rcases List.mem_cons.mp he with rfl | hmem
      · exact strLeads_join rel name h
      · rcases List.mem_append.mp hmem with hsub | hrest
        · by_cases hname : name = ""
          · subst hname
            have hj : joinRel rel "" = rel ++ "/" ++ "" := by unfold joinRel; rw [if_neg h]
            have hne : joinRel rel "" ≠ "" := by
              rw [hj]
              intro hc
              have hd : (rel ++ "/" ++ "").data = ("" : String).data := congrArg String.data hc
              simp [strData_append] at hd
            have hdeep := scan_path_leads (joinRel rel "") sub hne e hsub
            have hstep : strLeads (rel ++ "/") (joinRel rel "" ++ "/") = true :=
              strLeads_trans (strLeads_join rel "" h) (strLeads_self_append (joinRel rel "") "/")
            exact strLeads_trans hstep hdeep
          · have hne := joinRel_ne_empty rel name hname
            have hdeep := scan_path_leads (joinRel rel name) sub hne e hsub
            have hstep : strLeads (rel ++ "/") (joinRel rel name ++ "/") = true :=
              strLeads_trans (strLeads_join rel name h) (strLeads_self_append (joinRel rel name) "/")
            exact strLeads_trans hstep hdeep
        · exact scan_path_leads rel rest h e hrest

/-! ## Claims about the directory scanner (C4, C7, C10) -/

/-- C4 counterexample: in a directory listing a.ts, then an entry whose
stat fails, then c.ts, the scan returns only a.ts — the entry c.ts listed
after the failing one does not appear, contradicting the claim that every
other entry of the same directory still appears. -/
theorem scan_entries_after_stat_failure_dropped :
    scanListing "" (FsListing.ofList
      [("a.ts", .file 10), ("bad", .statFail), ("c.ts", .file 20)]) =
      [⟨"a.ts", "a.ts", .file, some 10⟩] ∧
    (⟨"c.ts", "c.ts", FileType.file, some 20⟩ : CodebaseFile) ∉
      scanListing "" (FsListing.ofList
        [("a.ts", .file 10), ("bad", .statFail), ("c.ts", .file 20)]) := by
  decide

/-- C4 amended: a stat failure is caught at the level of the directory
being scanned: the failing entry and all entries of that directory listed
after it are dropped (entries emitted before it are kept), while the
scan of the enclosing directory continues with its remaining entries
unaffected, and the scan as a whole returns normally — as the concrete
tree shows, where y.ts (after the failure, same directory) is dropped but
z.ts (in the parent) survives. -/
theorem scan_stat_failure_truncates_single_directory :
    (∀ (rel name : String) (rest : FsListing),
       shouldIgnoreFile name (joinRel rel name) = false →
       scanListing rel (.cons name .statFail rest) = []) ∧
    (∀ (rel name : String) (sub rest : FsListing),
       shouldIgnoreFile name (joinRel rel name) = false →
       scanListing rel (.cons name (.dir sub) rest) =
         ⟨joinRel rel name, name, .folder, none⟩ ::
           (scanListing (joinRel rel name) sub ++ scanListing rel rest)) ∧
    scanListing "" (FsListing.ofList
      [("d", .dir (FsListing.ofList
         [("x.ts", .file 1), ("bad", .statFail), ("y.ts", .file 2)])),
       ("z.ts", .file 3)]) =
      [⟨"d", "d", .folder, none⟩, ⟨"d/x.ts", "x.ts", .file, some 1⟩,
       ⟨"z.ts", "z.ts", .file, some 3⟩] := by
  refine ⟨?_, ?_, by decide⟩
  · intro rel name rest h
    simp [scanListing, h]
  · intro rel name sub rest h
    simp [scanListing, h]

/-- Witness for the amended C4 theorem: a stat failure heading a listing
empties that directory scan. -/
theorem scan_stat_failure_truncates_single_directory_witness :
    scanListing "" (.cons "bad" .statFail (.cons "c.ts" (.file 20) .nil)) = [] :=
  scan_stat_failure_truncates_single_directory.1 "" "bad"
    (.cons "c.ts" (.file 20) .nil) (by decide)

/-- C7: on the example tree the scan returns exactly src (folder),
src/index.ts (file), README.md (file) with no descendant of .git or
node_modules; an ignored entry is excluded together with its entire
subtree; and the traversal is depth-first: a non-ignored directory yields
its own entry first, followed by the block of its recursively scanned
descendants (all of whose paths extend the directory path plus a slash)
and then the remaining siblings. -/
theorem scan_depth_first_and_ignore_exclusion :
    scanListing "" (FsListing.ofList
      [(".git", .dir (FsListing.ofList [("HEAD", .file 1)])),
       ("node_modules", .dir (FsListing.ofList
         [("lodash", .dir (FsListing.ofList [("index.js", .file 2)]))])),
       ("src", .dir (FsListing.ofList [("index.ts", .file 5)])),
       ("README.md", .file 7)]) =
      [⟨"src", "src", .folder, none⟩, ⟨"src/index.ts", "index.ts", .file, some 5⟩,
       ⟨"README.md", "README.md", .file, some 7⟩] ∧
    (∀ (rel name : String) (node : FsNode) (rest : FsListing),
       shouldIgnoreFile name (joinRel rel name) = true →
       scanListing rel (.cons name node rest) = scanListing rel rest) ∧
    (∀ (rel name : String) (sub rest : FsListing),
       name ≠ "" →
       shouldIgnoreFile name (joinRel rel name) = false →
       scanListing rel (.cons name (.dir sub) rest) =
         ⟨joinRel rel name, name, .folder, none⟩ ::
           (scanListing (joinRel rel name) sub ++ scanListing rel rest) ∧
       ∀ e ∈ scanListing (joinRel rel name) sub,
         strLeads (joinRel rel name ++ "/") e.path = true) := by
  refine ⟨by decide, ?_, ?_⟩
  · intro rel name node rest h
    cases node <;> simp [scanListing, h]
  · intro rel name sub rest hname h
    refine ⟨by simp [scanListing, h], ?_⟩
    intro e he
    exact scan_path_leads (joinRel rel name) sub (joinRel_ne_empty rel name hname) e he

/-- Witness for C7 at the concrete src subtree: the folder entry is
emitted first, followed by its descendants and the remaining siblings. -/
theorem scan_depth_first_and_ignore_exclusion_witness :
    scanListing "" (.cons "src" (.dir (.cons "index.ts" (.file 5) .nil)) .nil) =
      ⟨joinRel "" "src", "src", .folder, none⟩ ::
        (scanListing (joinRel "" "src") (.cons "index.ts" (.file 5) .nil) ++
          scanListing "" FsListing.nil) :=
  (scan_depth_first_and_ignore_exclusion.2.2 "" "src"
    (.cons "index.ts" (.file 5) .nil) .nil (by decide) (by decide)).1

/-- C10: each ignore pattern is applied unanchored to both the entry name
and the relative path, so any entry whose name or path merely contains
one of the seven directory substrings is excluded with its whole subtree:
layout.ts and distance.py are ignored, and a file under a directory named
checkout disappears from the scan. -/
theorem ignore_patterns_overreach :
    (∀ (name rel sub : String),
       sub ∈ ["out", "dist", "build", "target", "vendor", "venv", "node_modules"] →
       (strContains name sub = true ∨ strContains rel sub = true) →
       shouldIgnoreFile name rel = true) ∧
    shouldIgnoreFile "layout.ts" "layout.ts" = true ∧
    shouldIgnoreFile "distance.py" "distance.py" = true ∧
    scanListing "" (FsListing.ofList
      [("checkout", .dir (FsListing.ofList [("inner.ts", .file 3)])),
       ("main.ts", .file 1)]) =
      [⟨"main.ts", "main.ts", .file, some 1⟩] := by
  refine ⟨?_, by decide, by decide, by decide⟩
  intro name rel sub hsub hor
  simp only [List.mem_cons, List.not_mem_nil, or_false] at hsub
  rcases hsub with rfl | rfl | rfl | rfl | rfl | rfl | rfl <;>
    rcases hor with h | h <;>
      simp [shouldIgnoreFile, ignoreTest, h]

/-- Witness for C10: a readme under a checkout directory is ignored
through the unanchored out pattern. -/
theorem ignore_patterns_overreach_witness :
    shouldIgnoreFile "readme.md" "notes/checkout/readme.md" = true :=
  ignore_patterns_overreach.1 "readme.md" "notes/checkout/readme.md" "out"
    (by decide) (Or.inr (by decide))

/-! ## Helper lemmas about substring search -/

theorem afterFirstL_eq_none {pat l : List Char} (h : containsL pat l = false) :
    afterFirstL pat l = none := by
  unfold containsL at h
  unfold afterFirstL
  cases hs : splitFirstL pat l with
  | none => rfl
  | some p =>
    rw [hs] at h
    simp at h

theorem containsL_false_cons {pat : List Char} {c : Char} {rest : List Char}
    (h : containsL pat (c :: rest) = false) :
    listLeads pat (c :: rest) = false ∧ containsL pat rest = false := by
  unfold containsL at h ⊢
  simp only [splitFirstL] at h
  by_cases hl : listLeads pat (c :: rest) = true
  · rw [if_pos hl] at h
    simp at h
  · rw [if_neg hl] at h
    refine ⟨by simpa using hl, ?_⟩
    cases hs : splitFirstL pat rest with
    | none => rfl
    | some p =>
      rw [hs] at h
      simp at h

theorem findConfidenceL_eq_none : ∀ (l : List Char),
    containsL "confidence:".data l = false → findConfidenceL l = none
  | [], _ => rfl
  | c :: rest, h => by
    obtain ⟨h1, h2⟩ := containsL_false_cons h
    simp only [findConfidenceL]
    rw [if_neg (by simp [h1])]
    exact findConfidenceL_eq_none rest h2

/-! ## Claims about response parsing (C8) -/

set_option maxRecDepth 16384 in
/-- C8: file-analysis parsing is a total function; the relevant-files
list never exceeds 15 entries; a reply without the REASONING: marker
falls back to the default reasoning, one without the RELEVANT_FILES:
marker to the empty list, one without any case-insensitive CONFIDENCE:
match to medium confidence; and a reply listing 20 file lines yields
exactly the first 15 in input order, with the reasoning text between the
markers and the matched confidence value. -/
theorem parse_file_analysis_total_and_capped :
    (∀ s : String, (parseFileAnalysis s).relevantFiles.length ≤ 15) ∧
    (∀ s : String, containsL "REASONING:".data s.data = false →
       (parseFileAnalysis s).reasoning = "Analysis completed") ∧
    (∀ s : String, containsL "RELEVANT_FILES:".data s.data = false →
       (parseFileAnalysis s).relevantFiles = []) ∧
    (∀ s : String, containsL "confidence:".data (toLowerL s.data) = false →
       (parseFileAnalysis s).confidence = .medium) ∧
    parseFileAnalysis
      "REASONING:\nPick the core files.\nRELEVANT_FILES:\nf01.ts\nf02.ts\nf03.ts\nf04.ts\nf05.ts\nf06.ts\nf07.ts\nf08.ts\nf09.ts\nf10.ts\nf11.ts\nf12.ts\nf13.ts\nf14.ts\nf15.ts\nf16.ts\nf17.ts\nf18.ts\nf19.ts\nf20.ts\nCONFIDENCE:\nhigh" =
      ⟨["f01.ts", "f02.ts", "f03.ts", "f04.ts", "f05.ts", "f06.ts", "f07.ts",
        "f08.ts", "f09.ts", "f10.ts", "f11.ts", "f12.ts", "f13.ts", "f14.ts",
        "f15.ts"], "Pick the core files.", .high⟩ := by
  refine ⟨?_, ?_, ?_, ?_, by decide⟩
  · intro s
    simp only [parseFileAnalysis, List.length_map, List.length_take]
    omega
  · intro s h
    simp [parseFileAnalysis, afterFirstL_eq_none h]
  · intro s h
    simp only [parseFileAnalysis, afterFirstL_eq_none h]
    decide
  · intro s h
    simp [parseFileAnalysis, findConfidenceL_eq_none _ h]

/-- Witness for C8 at a marker-free reply. -/
theorem parse_file_analysis_total_and_capped_witness :
    containsL "REASONING:".data ("a plain reply" : String).data = false ∧
    (parseFileAnalysis "a plain reply").reasoning = "Analysis completed" :=
  ⟨by decide, parse_file_analysis_total_and_capped.2.1 "a plain reply" (by decide)⟩

/-! ## Claims about the relevance filter (C9) -/

/-- C9: the relevance filter returns exactly the input entries that are
files and whose lowercased extension is in the allow-list, or whose
lowercased name contains readme, config, package, or makefile, or which
have no extension at all, as an order-preserving sublist of the input;
on [a.png (file), a.ts (file), notes (folder)] it returns exactly
[a.ts]. -/
theorem relevance_filter_exact :
    (∀ l : List CodebaseFile, List.Sublist (filterRelevant l) l) ∧
    (∀ (l : List CodebaseFile) (f : CodebaseFile),
       f ∈ filterRelevant l ↔ f ∈ l ∧ isRelevantFile f = true) ∧
    (∀ f : CodebaseFile, isRelevantFile f = true ↔
       (f.type = FileType.file ∧
        (relevantExtensions.contains (strToLower (extname f.path)) = true ∨
         strContains (strToLower f.name) "readme" = true ∨
         strContains (strToLower f.name) "config" = true ∨
         strContains (strToLower f.name) "package" = true ∨
         strContains (strToLower f.name) "makefile" = true ∨
         strToLower (extname f.path) = ""))) ∧
    filterRelevant
      [⟨"a.png", "a.png", .file, none⟩, ⟨"a.ts", "a.ts", .file, none⟩,
       ⟨"notes", "notes", .folder, none⟩] =
      [⟨"a.ts", "a.ts", .file, none⟩] := by
  refine ⟨?_, ?_, ?_, by decide⟩
  · intro l
    exact List.filter_sublist l
  · intro l f
    exact List.mem_filter
  · intro f
    unfold isRelevantFile
    cases hf : f.type <;>
      simp [hf, Bool.or_eq_true, decide_eq_true_eq, and_assoc, or_assoc]

end CnpCopilot
